import Mathlib

/-!
Shallow embedding of the intent-classification scripts
(src/addons/train_intent_model.py, src/addons/export_onnx.py,
src/addons/predict_intent_onnx.py) and proofs of the specified properties.

External machine-learning library calls (model loading, tokenization,
inference, ONNX graph export, weight quantization) are opaque collaborators:
they are modelled as abstract function parameters, following the spec's
black-box treatment.  Python dictionaries are modelled as association lists
with unique keys (List.lookup); Python integers as Int; parsed JSON values
as a small inductive type.
-/

namespace TrainIntentModel

/-- Values stored in a Python example dict (a labeled example record):
strings and integers cover the fields used by the trainer
(a text field holding a string, a label field holding a string that the
mapping step replaces with an integer id). -/
inductive PyVal where
  | str : String → PyVal
  | int : Int → PyVal
deriving DecidableEq, Repr

/-- A labeled example record, a Python dict with unique keys, e.g.
the record with fields text and label read from commands.json. -/
def Example := List (String × PyVal)

instance : DecidableEq Example := by
  unfold Example
  infer_instance

/-- Reading ex["label"]: returns the value, or raises KeyError when the
key is absent (modelled as the error branch of Except). -/
def exLabel (ex : Example) : Except String PyVal :=
  match ex.lookup "label" with
  | some v => Except.ok v
  | none => Except.error "KeyError: label"

/-- The list comprehension [ex["label"] for ex in data["train"] + data["validation"]]:
extracts every label value in order, propagating the first KeyError. -/
def extractLabels : List Example → Except String (List PyVal)
  | [] => Except.ok []
  | ex :: exs =>
    match exLabel ex with
    | Except.error e => Except.error e
    | Except.ok v =>
      match extractLabels exs with
      | Except.error e => Except.error e
      | Except.ok vs => Except.ok (v :: vs)

/-- labels = list(set([ex["label"] for ex in data["train"] + data["validation"]])):
the distinct label values of both splits.  Python set iteration order is
arbitrary (the spec flags it as non-deterministic); dedup picks one order. -/
def labelsOf (train val : List Example) : Except String (List PyVal) :=
  (extractLabels (train ++ val)).map List.dedup

/-- Helper for the dict comprehension over enumerate(labels): pairs each
label with its index, starting at i. -/
def label2idFrom : Int → List PyVal → List (PyVal × Int)
  | _, [] => []
  | i, l :: ls => (l, i) :: label2idFrom (i + 1) ls

/-- label2id = \x7bl: i for i, l in enumerate(labels)\x7d, as an association
list keyed by label value. -/
def label2id (labels : List PyVal) : List (PyVal × Int) :=
  label2idFrom 0 labels

/-- id2label = \x7bi: l for l, i in label2id.items()\x7d, the swapped pairs of
label2id. -/
def id2label (labels : List PyVal) : List (Int × PyVal) :=
  (label2id labels).map (fun p => (p.2, p.1))

/-- Assignment ex[k] = v on a dict whose keys are unique: replaces the value
stored at key k, leaving every other entry unchanged. -/
def setField (ex : Example) (k : String) (v : PyVal) : Example :=
  ex.map (fun p => if p.1 = k then (k, v) else p)

/-- def map_labels(example): example["label"] = label2id[example["label"]];
raises KeyError when the example has no label field or when its label value
is not a key of the given label2id dict. -/
def map_labels (l2i : List (PyVal × Int)) (ex : Example) : Except String Example :=
  match exLabel ex with
  | Except.error e => Except.error e
  | Except.ok v =>
    match l2i.lookup v with
    | none => Except.error "KeyError: label not in label2id"
    | some i => Except.ok (setField ex "label" (PyVal.int i))

end TrainIntentModel

namespace ExportOnnx

/-- Abstract filesystem: a set of directories and a map from file paths to
file contents.  Contents are abstract (type parameter C), since graph files
are opaque artifacts produced by external libraries. -/
structure FS (C : Type) where
  dirs : List String
  files : List (String × C)
deriving Repr

/-- onnx_dir.mkdir(parents=True, exist_ok=True): creates the directory if
absent and succeeds silently when it already exists. -/
def mkdirParents {C : Type} (fs : FS C) (d : String) : FS C :=
  if d ∈ fs.dirs then fs else { dirs := d :: fs.dirs, files := fs.files }

/-- Writing a file: the new content replaces any previous content at that
path, other paths are untouched. -/
def writeFile {C : Type} (fs : FS C) (p : String) (c : C) : FS C :=
  { dirs := fs.dirs, files := (p, c) :: fs.files.filter (fun q => ! (q.1 == p)) }

/-- HAS_ONNXRUNTIME_QUANT: the try/except around the quantization library
load.  The optional library is modelled as an Option; the flag records
whether the load succeeded. -/
def HAS_ONNXRUNTIME_QUANT {C : Type} (quantLib : Option (C → C)) : Bool :=
  quantLib.isSome

/-- A call to quantize_dynamic(src, dst, ...): a NameError if the library
was never imported, a file error if the source graph file is missing,
otherwise writes the quantized copy of the source file to dst. -/
def callQuantizeDynamic {C : Type} (quantLib : Option (C → C)) (fs : FS C)
    (src dst : String) : Except String (FS C) :=
  match quantLib with
  | none => Except.error "NameError: name quantize_dynamic is not defined"
  | some f =>
    match fs.files.lookup src with
    | none => Except.error "FileNotFoundError"
    | some content => Except.ok (writeFile fs dst (f content))

/-- def export_and_optionally_quantize(model_dir, onnx_dir, quantize=True).
loadModel abstracts AutoModelForSequenceClassification.from_pretrained (a
pure function of the model directory path, whose on-disk contents are fixed
for the run); onnxExport abstracts onnx_export_from_model, which writes
model.onnx into onnx_dir.  Returns the resulting filesystem and the list of
printed messages, or the propagated exception. -/
def export_and_optionally_quantize {C : Type} (loadModel : String → C)
    (onnxExport : C → C) (quantLib : Option (C → C)) (fs : FS C)
    (model_dir onnx_dir : String) (quantize : Bool) :
    Except String (FS C × List String) :=
  let fs1 := mkdirParents fs onnx_dir
  let hf_model := loadModel model_dir
  let exported := onnx_dir ++ "/model.onnx"
  let fs2 := writeFile fs1 exported (onnxExport hf_model)
  let msgs := ["Loading HF model from " ++ model_dir,
               "Exporting ONNX model to " ++ onnx_dir,
               "ONNX model exported to " ++ exported]
  if quantize then
    if ! HAS_ONNXRUNTIME_QUANT quantLib then
      Except.ok (fs2, msgs ++
        ["onnxruntime.quantization not available in this environment. Skipping quantization."])
    else
      let quantized_path := onnx_dir ++ "/model.int8.onnx"
      match callQuantizeDynamic quantLib fs2 exported quantized_path with
      | Except.error e => Except.error e
      | Except.ok fs3 =>
        Except.ok (fs3, msgs ++
          ["Quantizing " ++ exported ++ " -> " ++ quantized_path,
           "Quantized model written to " ++ quantized_path])
  else
    Except.ok (fs2, msgs)

/-- def main(): after argument parsing, calls the export with
quantize = not args.no_quant.  The optional smoke test step only loads and
prints; it writes no files and is omitted here. -/
def main {C : Type} (loadModel : String → C) (onnxExport : C → C)
    (quantLib : Option (C → C)) (fs : FS C) (model_dir onnx_dir : String)
    (no_quant : Bool) : Except String (FS C × List String) :=
  export_and_optionally_quantize loadModel onnxExport quantLib fs
    model_dir onnx_dir (! no_quant)

end ExportOnnx

namespace PredictIntentOnnx

/-- Parsed JSON values, enough for config.json: the top-level config object
is given as its field list, and the id2label field is itself a JSON value
(an object mapping stringified ids to label names in a well-formed config). -/
inductive Json where
  | str : String → Json
  | num : Int → Json
  | bool : Bool → Json
  | null : Json
  | arr : List Json → Json
  | obj : List (String × Json) → Json

/-- id2label = config.get("id2label", \x7b\x7d): the value stored at key
id2label in the parsed config object, or an empty dict when the key is
absent. -/
def id2labelOf (config : List (String × Json)) : Json :=
  (config.lookup "id2label").getD (Json.obj [])

/-- d.get(key, default) on a value d: returns the stored value or the
default when d is a dict; raises AttributeError when d is not a dict. -/
def dictGet (d : Json) (key : String) (default : Json) : Except String Json :=
  match d with
  | Json.obj fields => Except.ok ((fields.lookup key).getD default)
  | _ => Except.error "AttributeError: object has no attribute get"

/-- def predict_label(text): tokenizes the input, runs the ONNX model, takes
the argmax of the logits as the predicted index, and resolves
id2label.get(str(predicted_idx), str(predicted_idx)).  The tokenizer, the
ONNX session and the argmax over its logits are opaque external calls,
abstracted as the function modelArgmax from input text to the predicted
index (a non-negative int, hence Nat). -/
def predict_label (modelArgmax : String → Nat) (id2label : Json)
    (text : String) : Except String Json :=
  let predicted_idx := modelArgmax text
  dictGet id2label (toString predicted_idx) (Json.str (toString predicted_idx))

end PredictIntentOnnx

theorem lookup_cons_eq {α β : Type} [BEq α] [LawfulBEq α] (a : α) (b : β)
    (l : List (α × β)) : List.lookup a ((a, b) :: l) = some b := by
  simp [List.lookup_cons]

theorem lookup_cons_ne {α β : Type} [BEq α] [LawfulBEq α] {x a : α} (b : β)
    (l : List (α × β)) (h : x ≠ a) :
    List.lookup x ((a, b) :: l) = List.lookup x l := by
  simp [List.lookup_cons, beq_false_of_ne h]

namespace TrainIntentModel

theorem label2idFrom_roundtrip (labels : List PyVal) :
    ∀ i : Int, labels.Nodup → ∀ l ∈ labels,
    ∃ k, (label2idFrom i labels).lookup l = some k ∧
      ((label2idFrom i labels).map (fun p => (p.2, p.1))).lookup k = some l ∧
      i ≤ k ∧ k < i + labels.length := by
  induction labels with
  | nil =>
    intro i _ l hl
    simp at hl
  | cons a ls ih =>
    intro i hnd l hl
    rw [List.nodup_cons] at hnd
    rcases List.mem_cons.mp hl with h | h
    · subst h
      refine ⟨i, ?_, ?_, le_refl i, ?_⟩
      · exact lookup_cons_eq l i (label2idFrom (i + 1) ls)
      · simp only [label2idFrom, List.map_cons]
        exact lookup_cons_eq i l _
      · simp only [List.length_cons]
        omega
    · obtain ⟨k, hk1, hk2, hk3, hk4⟩ := ih (i + 1) hnd.2 l h
      have hne : l ≠ a := fun heq => hnd.1 (heq ▸ h)
      have hki : k ≠ i := by omega
      refine ⟨k, ?_, ?_, by omega, ?_⟩
      · rw [show label2idFrom i (a :: ls) = (a, i) :: label2idFrom (i + 1) ls from rfl,
          lookup_cons_ne i _ hne]
        exact hk1
      · simp only [label2idFrom, List.map_cons]
        rw [lookup_cons_ne a _ hki]
        exact hk2
      · simp only [List.length_cons]
        omega

theorem label2idFrom_lookup_isSome (labels : List PyVal) :
    ∀ (i : Int) (v : PyVal), v ∈ labels →
    ∃ k, (label2idFrom i labels).lookup v = some k := by
  induction labels with
  | nil =>
    intro i v hv
    simp at hv
  | cons a ls ih =>
    intro i v hv
    by_cases hva : v = a
    · subst hva
      exact ⟨i, lookup_cons_eq v i _⟩
    · obtain ⟨k, hk⟩ := ih (i + 1) v (by
        rcases List.mem_cons.mp hv with h | h
        · exact absurd h hva
        · exact h)
      refine ⟨k, ?_⟩
      rw [show label2idFrom i (a :: ls) = (a, i) :: label2idFrom (i + 1) ls from rfl,
        lookup_cons_ne i _ hva]
      exact hk

theorem label2idFrom_lookup_bounds (labels : List PyVal) :
    ∀ (i : Int) (v : PyVal) (k : Int),
    (label2idFrom i labels).lookup v = some k → i ≤ k ∧ k < i + labels.length := by
  induction labels with
  | nil =>
    intro i v k h
    simp [label2idFrom] at h
  | cons a ls ih =>
    intro i v k h
    rw [show label2idFrom i (a :: ls) = (a, i) :: label2idFrom (i + 1) ls from rfl] at h
    by_cases hva : v = a
    · subst hva
      rw [lookup_cons_eq v i _] at h
      cases h
      simp only [List.length_cons]
      omega
    · rw [lookup_cons_ne i _ hva] at h
      have := ih (i + 1) v k h
      simp only [List.length_cons]
      omega

theorem extractLabels_mem :
    ∀ (exs : List Example) (ls : List PyVal) (ex : Example) (v : PyVal),
    extractLabels exs = Except.ok ls → ex ∈ exs → exLabel ex = Except.ok v →
    v ∈ ls := by
  intro exs
  induction exs with
  | nil =>
    intro ls ex v _ hmem _
    simp at hmem
  | cons e es ih =>
    intro ls ex v hok hmem hlab
    unfold extractLabels at hok
    cases he : exLabel e with
    | error err =>
      rw [he] at hok
      simp at hok
    | ok w =>
      rw [he] at hok
      cases hes : extractLabels es with
      | error err =>
        rw [hes] at hok
        simp at hok
      | ok ws =>
        rw [hes] at hok
        simp at hok
        subst hok
        rcases List.mem_cons.mp hmem with h | h
        · subst h
          rw [he] at hlab
          injection hlab with hwv
          subst hwv
          exact List.mem_cons_self _ _
        · exact List.mem_cons_of_mem w (ih ws ex v hes h hlab)

theorem setField_cons (k1 : String) (v1 : PyVal) (rest : Example)
    (k : String) (w : PyVal) :
    setField ((k1, v1) :: rest) k w
      = (if k1 = k then (k, w) else (k1, v1)) :: setField rest k w := rfl

theorem setField_lookup_same (ex : Example) (k : String) (w : PyVal) :
    ∀ v0, ex.lookup k = some v0 → (setField ex k w).lookup k = some w := by
  induction ex with
  | nil =>
    intro v0 h
    simp [List.lookup] at h
  | cons p rest ih =>
    obtain ⟨k1, v1⟩ := p
    intro v0 h
    by_cases hk : k1 = k
    · rw [setField_cons, if_pos hk]
      exact lookup_cons_eq k w _
    · have hk2 : k ≠ k1 := fun heq => hk heq.symm
      rw [lookup_cons_ne v1 _ hk2] at h
      rw [setField_cons, if_neg hk, lookup_cons_ne v1 _ hk2]
      exact ih v0 h

theorem setField_lookup_other (ex : Example) (k : String) (w : PyVal)
    (k2 : String) (hne : k2 ≠ k) :
    (setField ex k w).lookup k2 = ex.lookup k2 := by
  induction ex with
  | nil => rfl
  | cons p rest ih =>
    obtain ⟨k1, v1⟩ := p
    by_cases hk : k1 = k
    · subst hk
      rw [setField_cons, if_pos rfl, lookup_cons_ne w _ hne,
        lookup_cons_ne v1 _ hne]
      exact ih
    · by_cases hk2 : k2 = k1
      · subst hk2
        rw [setField_cons, if_neg hk, lookup_cons_eq k2 v1 (setField rest k w),
          lookup_cons_eq k2 v1 rest]
      · rw [setField_cons, if_neg hk, lookup_cons_ne v1 _ hk2,
          lookup_cons_ne v1 _ hk2]
        exact ih

theorem label2idFrom_map_snd (labels : List PyVal) :
    ∀ i : Int, (label2idFrom i labels).map Prod.snd
      = (List.range labels.length).map (fun n : Nat => i + n) := by
  induction labels with
  | nil =>
    intro i
    simp [label2idFrom]
  | cons a ls ih =>
    intro i
    have hfun : (fun n : Nat => (i + 1) + (n : Int))
        = fun n : Nat => i + ((n : Int) + 1) := by
      funext n
      ring
    simp only [label2idFrom, List.map_cons, List.length_cons,
      List.range_succ_eq_map, ih (i + 1), hfun, List.map_map]
    refine List.cons_eq_cons.mpr ⟨by simp, ?_⟩
    refine List.map_congr_left ?_
    intro n _
    simp only [Function.comp]
    push_cast
    ring

theorem labelsOf_ok_iff (train val : List Example) (labels : List PyVal) :
    labelsOf train val = Except.ok labels ↔
    ∃ ls, extractLabels (train ++ val) = Except.ok ls ∧ labels = ls.dedup := by
  unfold labelsOf
  cases hE : extractLabels (train ++ val) with
  | error e =>
    constructor
    · intro h
      simp [Except.map] at h
    · intro ⟨ls, hls, _⟩
      cases hls
  | ok ls =>
    constructor
    · intro h
      simp [Except.map] at h
      exact ⟨ls, rfl, h.symm⟩
    · intro ⟨ls2, hls2, hlab⟩
      injection hls2 with hls2
      subst hls2
      subst hlab
      simp [Except.map]

end TrainIntentModel

/-- Claim C4: for every label l in the label vocabulary built by the
trainer, id2label[label2id[l]] == l — composing the label-to-id map with
the id-to-label map is the identity on the set of labels. -/
theorem C4_label_mapping_roundtrip (train val : List TrainIntentModel.Example)
    (labels : List TrainIntentModel.PyVal) (l : TrainIntentModel.PyVal)
    (hlabels : TrainIntentModel.labelsOf train val = Except.ok labels)
    (hl : l ∈ labels) :
    ∃ k, (TrainIntentModel.label2id labels).lookup l = some k ∧
      (TrainIntentModel.id2label labels).lookup k = some l := by
  obtain ⟨ls, _, hdedup⟩ :=
    (TrainIntentModel.labelsOf_ok_iff train val labels).mp hlabels
  have hnd : labels.Nodup := hdedup ▸ List.nodup_dedup ls
  obtain ⟨k, h1, h2, _, _⟩ :=
    TrainIntentModel.label2idFrom_roundtrip labels 0 hnd l hl
  exact ⟨k, h1, h2⟩

/-- Witness for C4 at a concrete two-example dataset. -/
theorem C4_label_mapping_roundtrip_witness :
    ∃ k, (TrainIntentModel.label2id
        [TrainIntentModel.PyVal.str "brighten", TrainIntentModel.PyVal.str "draw"]).lookup
        (TrainIntentModel.PyVal.str "draw") = some k ∧
      (TrainIntentModel.id2label
        [TrainIntentModel.PyVal.str "brighten", TrainIntentModel.PyVal.str "draw"]).lookup k
        = some (TrainIntentModel.PyVal.str "draw") :=
  C4_label_mapping_roundtrip
    [[("text", TrainIntentModel.PyVal.str "brighten image by 20%"),
      ("label", TrainIntentModel.PyVal.str "brighten")]]
    [[("text", TrainIntentModel.PyVal.str "draw a red circle"),
      ("label", TrainIntentModel.PyVal.str "draw")]]
    [TrainIntentModel.PyVal.str "brighten", TrainIntentModel.PyVal.str "draw"]
    (TrainIntentModel.PyVal.str "draw") (by rfl) (by decide)

/-- Claim C5: the vocabulary is built from the union of labels of both
splits, so every label value occurring in any example of either split is a
key of label2id, and the label-mapping step never hits its failure branch:
map_labels returns ok on every example of either split. -/
theorem C5_mapping_never_fails (train val : List TrainIntentModel.Example)
    (labels : List TrainIntentModel.PyVal) (ex : TrainIntentModel.Example)
    (v : TrainIntentModel.PyVal)
    (hlabels : TrainIntentModel.labelsOf train val = Except.ok labels)
    (hex : ex ∈ train ++ val)
    (hv : TrainIntentModel.exLabel ex = Except.ok v) :
    (∃ k, (TrainIntentModel.label2id labels).lookup v = some k) ∧
    ∃ ex2, TrainIntentModel.map_labels (TrainIntentModel.label2id labels) ex
      = Except.ok ex2 := by
  obtain ⟨ls, hE, hdedup⟩ :=
    (TrainIntentModel.labelsOf_ok_iff train val labels).mp hlabels
  have hvls : v ∈ ls := TrainIntentModel.extractLabels_mem _ _ _ _ hE hex hv
  have hvlabels : v ∈ labels := by
    rw [hdedup]
    exact List.mem_dedup.mpr hvls
  obtain ⟨k, hk⟩ :=
    TrainIntentModel.label2idFrom_lookup_isSome labels 0 v hvlabels
  refine ⟨⟨k, hk⟩, ⟨TrainIntentModel.setField ex "label" (TrainIntentModel.PyVal.int k), ?_⟩⟩
  have hk2 : (TrainIntentModel.label2id labels).lookup v = some k := hk
  simp only [TrainIntentModel.map_labels, hv, hk2]

/-- Witness for C5 at a concrete two-example dataset. -/
theorem C5_mapping_never_fails_witness :
    (∃ k, (TrainIntentModel.label2id
        [TrainIntentModel.PyVal.str "brighten", TrainIntentModel.PyVal.str "draw"]).lookup
        (TrainIntentModel.PyVal.str "draw") = some k) ∧
    ∃ ex2, TrainIntentModel.map_labels
      (TrainIntentModel.label2id
        [TrainIntentModel.PyVal.str "brighten", TrainIntentModel.PyVal.str "draw"])
      [("text", TrainIntentModel.PyVal.str "draw a red circle"),
       ("label", TrainIntentModel.PyVal.str "draw")] = Except.ok ex2 :=
  C5_mapping_never_fails
    [[("text", TrainIntentModel.PyVal.str "brighten image by 20%"),
      ("label", TrainIntentModel.PyVal.str "brighten")]]
    [[("text", TrainIntentModel.PyVal.str "draw a red circle"),
      ("label", TrainIntentModel.PyVal.str "draw")]]
    [TrainIntentModel.PyVal.str "brighten", TrainIntentModel.PyVal.str "draw"]
    [("text", TrainIntentModel.PyVal.str "draw a red circle"),
     ("label", TrainIntentModel.PyVal.str "draw")]
    (TrainIntentModel.PyVal.str "draw") (by rfl) (by decide) (by rfl)

namespace TrainIntentModel

theorem exLabel_ok_inv (ex : Example) (v : PyVal)
    (h : exLabel ex = Except.ok v) : ex.lookup "label" = some v := by
  unfold exLabel at h
  cases hl : ex.lookup "label" with
  | none =>
    rw [hl] at h
    simp at h
  | some w =>
    rw [hl] at h
    simp at h
    rw [h]

theorem map_labels_ok_inv (l2i : List (PyVal × Int)) (ex ex2 : Example)
    (h : map_labels l2i ex = Except.ok ex2) :
    ∃ v i, exLabel ex = Except.ok v ∧ l2i.lookup v = some i ∧
      ex2 = setField ex "label" (PyVal.int i) := by
  unfold map_labels at h
  cases hv : exLabel ex with
  | error e =>
    rw [hv] at h
    simp at h
  | ok v =>
    rw [hv] at h
    have h2 : (match l2i.lookup v with
      | none => (Except.error "KeyError: label not in label2id" : Except String Example)
      | some i => Except.ok (setField ex "label" (PyVal.int i))) = Except.ok ex2 := h
    cases hk : l2i.lookup v with
    | none =>
      rw [hk] at h2
      cases h2
    | some i =>
      rw [hk] at h2
      injection h2 with h3
      exact ⟨v, i, rfl, hk, h3.symm⟩

end TrainIntentModel

/-- Claim C6: for every example accepted by the trainer's label-mapping
step, the assigned integer id satisfies 0 <= id < N where N is the
vocabulary size, and the ids assigned by label2id are exactly the dense
range 0..N-1. -/
theorem C6_ids_dense_range (labels : List TrainIntentModel.PyVal)
    (ex ex2 : TrainIntentModel.Example)
    (h : TrainIntentModel.map_labels (TrainIntentModel.label2id labels) ex
      = Except.ok ex2) :
    (∃ id : Int, ex2.lookup "label" = some (TrainIntentModel.PyVal.int id) ∧
      0 ≤ id ∧ id < labels.length) ∧
    (TrainIntentModel.label2id labels).map Prod.snd
      = (List.range labels.length).map (fun n : Nat => (n : Int)) := by
  constructor
  · obtain ⟨v, i, hv, hk, hex2⟩ :=
      TrainIntentModel.map_labels_ok_inv _ ex ex2 h
    subst hex2
    have hbounds := TrainIntentModel.label2idFrom_lookup_bounds labels 0 v i hk
    have hlook := TrainIntentModel.exLabel_ok_inv ex v hv
    refine ⟨i, TrainIntentModel.setField_lookup_same ex "label" _ v hlook,
      by omega, by omega⟩
  · have := TrainIntentModel.label2idFrom_map_snd labels 0
    simpa using this

/-- Witness for C6 at a concrete example and a two-label vocabulary. -/
theorem C6_ids_dense_range_witness :
    (∃ id : Int,
      ([("text", TrainIntentModel.PyVal.str "draw a red circle"),
        ("label", TrainIntentModel.PyVal.int 1)] : TrainIntentModel.Example).lookup "label"
        = some (TrainIntentModel.PyVal.int id) ∧ 0 ≤ id ∧
        id < ([TrainIntentModel.PyVal.str "brighten",
               TrainIntentModel.PyVal.str "draw"] : List TrainIntentModel.PyVal).length) ∧
    (TrainIntentModel.label2id
      [TrainIntentModel.PyVal.str "brighten", TrainIntentModel.PyVal.str "draw"]).map Prod.snd
      = (List.range ([TrainIntentModel.PyVal.str "brighten",
          TrainIntentModel.PyVal.str "draw"] : List TrainIntentModel.PyVal).length).map
          (fun n : Nat => (n : Int)) :=
  C6_ids_dense_range
    [TrainIntentModel.PyVal.str "brighten", TrainIntentModel.PyVal.str "draw"]
    [("text", TrainIntentModel.PyVal.str "draw a red circle"),
     ("label", TrainIntentModel.PyVal.str "draw")]
    [("text", TrainIntentModel.PyVal.str "draw a red circle"),
     ("label", TrainIntentModel.PyVal.int 1)]
    (by rfl)

/-- Claim C10: map_labels changes only the label field, replacing the label
string with its integer id from label2id; every other field of the record,
in particular text, is left unchanged. -/
theorem C10_map_labels_frame (l2i : List (TrainIntentModel.PyVal × Int))
    (ex ex2 : TrainIntentModel.Example)
    (h : TrainIntentModel.map_labels l2i ex = Except.ok ex2) :
    (∀ k2 : String, k2 ≠ "label" → ex2.lookup k2 = ex.lookup k2) ∧
    ∃ v i, TrainIntentModel.exLabel ex = Except.ok v ∧ l2i.lookup v = some i ∧
      ex2.lookup "label" = some (TrainIntentModel.PyVal.int i) := by
  obtain ⟨v, i, hv, hk, hex2⟩ := TrainIntentModel.map_labels_ok_inv l2i ex ex2 h
  subst hex2
  refine ⟨fun k2 hk2 => TrainIntentModel.setField_lookup_other ex "label" _ k2 hk2,
    v, i, hv, hk, ?_⟩
  exact TrainIntentModel.setField_lookup_same ex "label" _ v
    (TrainIntentModel.exLabel_ok_inv ex v hv)

/-- Witness for C10 at a concrete example and mapping. -/
theorem C10_map_labels_frame_witness :
    (∀ k2 : String, k2 ≠ "label" →
      ([("text", TrainIntentModel.PyVal.str "draw a red circle"),
        ("label", TrainIntentModel.PyVal.int 1)] : TrainIntentModel.Example).lookup k2
      = ([("text", TrainIntentModel.PyVal.str "draw a red circle"),
          ("label", TrainIntentModel.PyVal.str "draw")] : TrainIntentModel.Example).lookup k2) ∧
    ∃ v i, TrainIntentModel.exLabel
        [("text", TrainIntentModel.PyVal.str "draw a red circle"),
         ("label", TrainIntentModel.PyVal.str "draw")] = Except.ok v ∧
      (TrainIntentModel.label2id
        [TrainIntentModel.PyVal.str "brighten", TrainIntentModel.PyVal.str "draw"]).lookup v
        = some i ∧
      ([("text", TrainIntentModel.PyVal.str "draw a red circle"),
        ("label", TrainIntentModel.PyVal.int 1)] : TrainIntentModel.Example).lookup "label"
        = some (TrainIntentModel.PyVal.int i) :=
  C10_map_labels_frame
    (TrainIntentModel.label2id
      [TrainIntentModel.PyVal.str "brighten", TrainIntentModel.PyVal.str "draw"])
    [("text", TrainIntentModel.PyVal.str "draw a red circle"),
     ("label", TrainIntentModel.PyVal.str "draw")]
    [("text", TrainIntentModel.PyVal.str "draw a red circle"),
     ("label", TrainIntentModel.PyVal.int 1)]
    (by rfl)

/-- Claim C3: for every input text, if the predicted index produced by the
model is not a key of the id2label mapping loaded from the artifact's
config, then predict_label returns the decimal string form of that index
and does not raise an exception. -/
theorem C3_predict_label_fallback (modelArgmax : String → Nat)
    (config : List (String × PredictIntentOnnx.Json))
    (fields : List (String × PredictIntentOnnx.Json)) (text : String)
    (hload : PredictIntentOnnx.id2labelOf config = PredictIntentOnnx.Json.obj fields)
    (hmiss : fields.lookup (toString (modelArgmax text)) = none) :
    PredictIntentOnnx.predict_label modelArgmax (PredictIntentOnnx.id2labelOf config) text
      = Except.ok (PredictIntentOnnx.Json.str (toString (modelArgmax text))) := by
  rw [hload]
  show Except.ok ((fields.lookup (toString (modelArgmax text))).getD
      (PredictIntentOnnx.Json.str (toString (modelArgmax text))))
    = Except.ok (PredictIntentOnnx.Json.str (toString (modelArgmax text)))
  rw [hmiss]
  rfl

/-- Witness for C3: a config whose id2label has only key 0, with a model
that predicts index 5. -/
theorem C3_predict_label_fallback_witness :
    PredictIntentOnnx.predict_label (fun _ => 5)
      (PredictIntentOnnx.id2labelOf
        [("id2label", PredictIntentOnnx.Json.obj
          [("0", PredictIntentOnnx.Json.str "brighten")])])
      "brighten image by 20%"
      = Except.ok (PredictIntentOnnx.Json.str
          (toString ((fun (_ : String) => (5 : Nat)) "brighten image by 20%"))) :=
  C3_predict_label_fallback (fun _ => 5)
    [("id2label", PredictIntentOnnx.Json.obj
      [("0", PredictIntentOnnx.Json.str "brighten")])]
    [("0", PredictIntentOnnx.Json.str "brighten")]
    "brighten image by 20%" (by rfl) (by rfl)

/-- Claim C9: if config.json has no id2label key at all, loading still
succeeds with an empty mapping, and then for every input text
predict_label returns the stringified predicted index without raising. -/
theorem C9_missing_id2label_key (modelArgmax : String → Nat)
    (config : List (String × PredictIntentOnnx.Json)) (text : String)
    (hnokey : config.lookup "id2label" = none) :
    PredictIntentOnnx.id2labelOf config = PredictIntentOnnx.Json.obj [] ∧
    PredictIntentOnnx.predict_label modelArgmax (PredictIntentOnnx.id2labelOf config) text
      = Except.ok (PredictIntentOnnx.Json.str (toString (modelArgmax text))) := by
  have hload : PredictIntentOnnx.id2labelOf config = PredictIntentOnnx.Json.obj [] := by
    unfold PredictIntentOnnx.id2labelOf
    rw [hnokey]
    rfl
  refine ⟨hload, ?_⟩
  rw [hload]
  unfold PredictIntentOnnx.predict_label PredictIntentOnnx.dictGet
  rfl

/-- Witness for C9: a config carrying only a model_type field. -/
theorem C9_missing_id2label_key_witness :
    PredictIntentOnnx.id2labelOf
      [("model_type", PredictIntentOnnx.Json.str "distilbert")]
      = PredictIntentOnnx.Json.obj [] ∧
    PredictIntentOnnx.predict_label (fun _ => 3)
      (PredictIntentOnnx.id2labelOf
        [("model_type", PredictIntentOnnx.Json.str "distilbert")])
      "draw a red circle"
      = Except.ok (PredictIntentOnnx.Json.str
          (toString ((fun (_ : String) => (3 : Nat)) "draw a red circle"))) :=
  C9_missing_id2label_key (fun _ => 3)
    [("model_type", PredictIntentOnnx.Json.str "distilbert")]
    "draw a red circle" (by rfl)

namespace ExportOnnx

theorem lookup_filter_ne {C : Type} (l : List (String × C)) (p q : String)
    (h : q ≠ p) :
    (l.filter (fun r => ! (r.1 == p))).lookup q = l.lookup q := by
  induction l with
  | nil => rfl
  | cons r rest ih =>
    obtain ⟨k1, v1⟩ := r
    by_cases hk : k1 = p
    · subst hk
      have hqk : q ≠ k1 := h
      simp only [List.filter_cons, beq_self_eq_true, Bool.not_true, ite_false,
        Bool.false_eq_true]
      rw [lookup_cons_ne v1 rest hqk]
      exact ih
    · simp only [List.filter_cons, beq_false_of_ne hk, Bool.not_false, ite_true]
      by_cases hq : q = k1
      · subst hq
        rw [lookup_cons_eq q v1 _, lookup_cons_eq q v1 rest]
      · rw [lookup_cons_ne v1 _ hq, lookup_cons_ne v1 rest hq]
        exact ih

theorem writeFile_lookup_same {C : Type} (fs : FS C) (p : String) (c : C) :
    (writeFile fs p c).files.lookup p = some c := by
  unfold writeFile
  exact lookup_cons_eq p c _

theorem writeFile_lookup_other {C : Type} (fs : FS C) (p : String) (c : C)
    (q : String) (h : q ≠ p) :
    (writeFile fs p c).files.lookup q = fs.files.lookup q := by
  unfold writeFile
  rw [lookup_cons_ne c _ h]
  exact lookup_filter_ne fs.files p q h

theorem mkdirParents_files {C : Type} (fs : FS C) (d : String) :
    (mkdirParents fs d).files = fs.files := by
  unfold mkdirParents
  split <;> rfl

theorem mkdirParents_idem {C : Type} (fs : FS C) (d : String) :
    mkdirParents (mkdirParents fs d) d = mkdirParents fs d := by
  unfold mkdirParents
  by_cases h : d ∈ fs.dirs
  · simp [h]
  · simp [h]

theorem model_paths_ne (d : String) :
    d ++ "/model.onnx" ≠ d ++ "/model.int8.onnx" := by
  intro h
  have h2 := congrArg String.data h
  rw [String.data_append, String.data_append] at h2
  have h3 := List.append_cancel_left h2
  simp at h3

theorem export_eq_noquant {C : Type} (loadModel : String → C)
    (onnxExport : C → C) (quantLib : Option (C → C)) (fs : FS C)
    (model_dir onnx_dir : String) :
    export_and_optionally_quantize loadModel onnxExport quantLib fs
      model_dir onnx_dir false
      = Except.ok
        (writeFile (mkdirParents fs onnx_dir) (onnx_dir ++ "/model.onnx")
          (onnxExport (loadModel model_dir)),
         ["Loading HF model from " ++ model_dir,
          "Exporting ONNX model to " ++ onnx_dir,
          "ONNX model exported to " ++ (onnx_dir ++ "/model.onnx")]) := rfl

theorem export_eq_skip {C : Type} (loadModel : String → C)
    (onnxExport : C → C) (fs : FS C) (model_dir onnx_dir : String) :
    export_and_optionally_quantize loadModel onnxExport none fs
      model_dir onnx_dir true
      = Except.ok
        (writeFile (mkdirParents fs onnx_dir) (onnx_dir ++ "/model.onnx")
          (onnxExport (loadModel model_dir)),
         ["Loading HF model from " ++ model_dir,
          "Exporting ONNX model to " ++ onnx_dir,
          "ONNX model exported to " ++ (onnx_dir ++ "/model.onnx"),
          "onnxruntime.quantization not available in this environment. Skipping quantization."]) := rfl

theorem export_eq_quant {C : Type} (loadModel : String → C)
    (onnxExport : C → C) (f : C → C) (fs : FS C) (model_dir onnx_dir : String) :
    export_and_optionally_quantize loadModel onnxExport (some f) fs
      model_dir onnx_dir true
      = Except.ok
        (writeFile
          (writeFile (mkdirParents fs onnx_dir) (onnx_dir ++ "/model.onnx")
            (onnxExport (loadModel model_dir)))
          (onnx_dir ++ "/model.int8.onnx")
          (f (onnxExport (loadModel model_dir))),
         ["Loading HF model from " ++ model_dir,
          "Exporting ONNX model to " ++ onnx_dir,
          "ONNX model exported to " ++ (onnx_dir ++ "/model.onnx"),
          "Quantizing " ++ (onnx_dir ++ "/model.onnx") ++ " -> "
            ++ (onnx_dir ++ "/model.int8.onnx"),
          "Quantized model written to " ++ (onnx_dir ++ "/model.int8.onnx")]) := by
  simp [export_and_optionally_quantize, callQuantizeDynamic,
    HAS_ONNXRUNTIME_QUANT, writeFile_lookup_same]

end ExportOnnx

/-- Claim C1: if the quantization library is unavailable
(HAS_ONNXRUNTIME_QUANT is false), every call to the exporter with
quantization requested still writes model.onnx into the output directory,
prints the skip warning, and returns normally without raising. -/
theorem C1_quant_unavailable_skips {C : Type} (loadModel : String → C)
    (onnxExport : C → C) (quantLib : Option (C → C)) (fs : ExportOnnx.FS C)
    (model_dir onnx_dir : String)
    (hq : ExportOnnx.HAS_ONNXRUNTIME_QUANT quantLib = false) :
    ∃ fs2 msgs,
      ExportOnnx.export_and_optionally_quantize loadModel onnxExport quantLib fs
        model_dir onnx_dir true = Except.ok (fs2, msgs) ∧
      fs2.files.lookup (onnx_dir ++ "/model.onnx")
        = some (onnxExport (loadModel model_dir)) ∧
      "onnxruntime.quantization not available in this environment. Skipping quantization."
        ∈ msgs := by
  have hnone : quantLib = none := by
    cases quantLib with
    | none => rfl
    | some f => simp [ExportOnnx.HAS_ONNXRUNTIME_QUANT] at hq
  subst hnone
  refine ⟨_, _, ExportOnnx.export_eq_skip loadModel onnxExport fs model_dir onnx_dir,
    ExportOnnx.writeFile_lookup_same _ _ _, ?_⟩
  simp

/-- Witness for C1 at a concrete filesystem with abstract content Nat. -/
theorem C1_quant_unavailable_skips_witness :
    ∃ fs2 msgs,
      ExportOnnx.export_and_optionally_quantize (fun _ => (0 : Nat)) (fun c => c + 1)
        none ⟨[], []⟩ "intent_model" "onnx_model" true = Except.ok (fs2, msgs) ∧
      fs2.files.lookup ("onnx_model" ++ "/model.onnx")
        = some ((fun c => c + 1) ((fun _ => (0 : Nat)) "intent_model")) ∧
      "onnxruntime.quantization not available in this environment. Skipping quantization."
        ∈ msgs :=
  C1_quant_unavailable_skips (fun _ => (0 : Nat)) (fun c => c + 1) none
    ⟨[], []⟩ "intent_model" "onnx_model" (by rfl)

/-- Claim C7: the exporter writes model.int8.onnx iff quantization was
requested and the quantization library is available; and main invoked with
the no-quant flag produces no quantized file regardless of availability. -/
theorem C7_quantized_iff_requested_and_available {C : Type}
    (loadModel : String → C) (onnxExport : C → C) (quantLib : Option (C → C))
    (fs : ExportOnnx.FS C) (model_dir onnx_dir : String) (quantize : Bool)
    (hfresh : fs.files.lookup (onnx_dir ++ "/model.int8.onnx") = none) :
    (∃ fs2 msgs,
      ExportOnnx.export_and_optionally_quantize loadModel onnxExport quantLib fs
        model_dir onnx_dir quantize = Except.ok (fs2, msgs) ∧
      ((fs2.files.lookup (onnx_dir ++ "/model.int8.onnx")).isSome
        ↔ (quantize = true ∧ ExportOnnx.HAS_ONNXRUNTIME_QUANT quantLib = true))) ∧
    (∃ fs3 msgs3,
      ExportOnnx.main loadModel onnxExport quantLib fs model_dir onnx_dir true
        = Except.ok (fs3, msgs3) ∧
      fs3.files.lookup (onnx_dir ++ "/model.int8.onnx") = none) := by
  have hne : (onnx_dir ++ "/model.int8.onnx") ≠ (onnx_dir ++ "/model.onnx") :=
    fun h => ExportOnnx.model_paths_ne onnx_dir h.symm
  have hbase : (ExportOnnx.writeFile (ExportOnnx.mkdirParents fs onnx_dir)
      (onnx_dir ++ "/model.onnx") (onnxExport (loadModel model_dir))).files.lookup
      (onnx_dir ++ "/model.int8.onnx") = none := by
    rw [ExportOnnx.writeFile_lookup_other _ _ _ _ hne,
      ExportOnnx.mkdirParents_files]
    exact hfresh
  constructor
  · cases quantize with
    | false =>
      refine ⟨_, _, ExportOnnx.export_eq_noquant loadModel onnxExport quantLib fs
        model_dir onnx_dir, ?_⟩
      rw [hbase]
      simp
    | true =>
      cases quantLib with
      | none =>
        refine ⟨_, _, ExportOnnx.export_eq_skip loadModel onnxExport fs
          model_dir onnx_dir, ?_⟩
        rw [hbase]
        simp [ExportOnnx.HAS_ONNXRUNTIME_QUANT]
      | some f =>
        refine ⟨_, _, ExportOnnx.export_eq_quant loadModel onnxExport f fs
          model_dir onnx_dir, ?_⟩
        rw [ExportOnnx.writeFile_lookup_same]
        simp [ExportOnnx.HAS_ONNXRUNTIME_QUANT]
  · refine ⟨_, _, ExportOnnx.export_eq_noquant loadModel onnxExport quantLib fs
      model_dir onnx_dir, hbase⟩

/-- Witness for C7 with the library available and quantization requested. -/
theorem C7_quantized_iff_requested_and_available_witness :
    (∃ fs2 msgs,
      ExportOnnx.export_and_optionally_quantize (fun _ => (0 : Nat)) (fun c => c + 1)
        (some (fun c => c * 2)) ⟨[], []⟩ "intent_model" "onnx_model" true
        = Except.ok (fs2, msgs) ∧
      ((fs2.files.lookup ("onnx_model" ++ "/model.int8.onnx")).isSome
        ↔ (true = true ∧ ExportOnnx.HAS_ONNXRUNTIME_QUANT
            (some (fun c : Nat => c * 2)) = true))) ∧
    (∃ fs3 msgs3,
      ExportOnnx.main (fun _ => (0 : Nat)) (fun c => c + 1) (some (fun c => c * 2))
        ⟨[], []⟩ "intent_model" "onnx_model" true = Except.ok (fs3, msgs3) ∧
      fs3.files.lookup ("onnx_model" ++ "/model.int8.onnx") = none) :=
  C7_quantized_iff_requested_and_available (fun _ => (0 : Nat)) (fun c => c + 1)
    (some (fun c => c * 2)) ⟨[], []⟩ "intent_model" "onnx_model" true (by rfl)

/-- Claim C8: running the exporter twice on the same model directory with
identical inputs succeeds both times — in particular the second directory
creation is idempotent and does not fail on the existing directory — and
both runs leave the same graph file content at model.onnx (the external
export is a fixed function of the unchanged model directory). -/
theorem C8_export_idempotent {C : Type} (loadModel : String → C)
    (onnxExport : C → C) (quantLib : Option (C → C)) (fs : ExportOnnx.FS C)
    (model_dir onnx_dir : String) (quantize : Bool) :
    ∃ fs1 m1 fs2 m2,
      ExportOnnx.export_and_optionally_quantize loadModel onnxExport quantLib fs
        model_dir onnx_dir quantize = Except.ok (fs1, m1) ∧
      ExportOnnx.export_and_optionally_quantize loadModel onnxExport quantLib fs1
        model_dir onnx_dir quantize = Except.ok (fs2, m2) ∧
      fs2.files.lookup (onnx_dir ++ "/model.onnx")
        = fs1.files.lookup (onnx_dir ++ "/model.onnx") ∧
      fs1.files.lookup (onnx_dir ++ "/model.onnx")
        = some (onnxExport (loadModel model_dir)) ∧
      ExportOnnx.mkdirParents (ExportOnnx.mkdirParents fs onnx_dir) onnx_dir
        = ExportOnnx.mkdirParents fs onnx_dir := by
  have hne : (onnx_dir ++ "/model.onnx") ≠ (onnx_dir ++ "/model.int8.onnx") :=
    ExportOnnx.model_paths_ne onnx_dir
  cases quantize with
  | false =>
    refine ⟨_, _, _, _,
      ExportOnnx.export_eq_noquant loadModel onnxExport quantLib fs model_dir onnx_dir,
      ExportOnnx.export_eq_noquant loadModel onnxExport quantLib _ model_dir onnx_dir,
      ?_, ExportOnnx.writeFile_lookup_same _ _ _,
      ExportOnnx.mkdirParents_idem fs onnx_dir⟩
    rw [ExportOnnx.writeFile_lookup_same, ExportOnnx.writeFile_lookup_same]
  | true =>
    cases quantLib with
    | none =>
      refine ⟨_, _, _, _,
        ExportOnnx.export_eq_skip loadModel onnxExport fs model_dir onnx_dir,
        ExportOnnx.export_eq_skip loadModel onnxExport _ model_dir onnx_dir,
        ?_, ExportOnnx.writeFile_lookup_same _ _ _,
        ExportOnnx.mkdirParents_idem fs onnx_dir⟩
      rw [ExportOnnx.writeFile_lookup_same, ExportOnnx.writeFile_lookup_same]
    | some f =>
      refine ⟨_, _, _, _,
        ExportOnnx.export_eq_quant loadModel onnxExport f fs model_dir onnx_dir,
        ExportOnnx.export_eq_quant loadModel onnxExport f _ model_dir onnx_dir,
        ?_, ?_, ExportOnnx.mkdirParents_idem fs onnx_dir⟩
      · rw [ExportOnnx.writeFile_lookup_other _ _ _ _ hne,
          ExportOnnx.writeFile_lookup_same,
          ExportOnnx.writeFile_lookup_other _ _ _ _ hne,
          ExportOnnx.writeFile_lookup_same]
      · rw [ExportOnnx.writeFile_lookup_other _ _ _ _ hne,
          ExportOnnx.writeFile_lookup_same]
